import Mathlib

/-!
# SimpleLogger event registry — verification of the typed event bus

Shallow embedding of the `EventBus` / `EventScopeImpl` classes of
`src/helpers.ts` (the typed event registry of the SimpleLogger repository).

Modelling decisions, each justified by the source:

* The four private records of `EventBus` (`scopes`, `events`, `handlers`,
  `registrations`) are plain string-keyed objects created with
  `Object.create(null)`.  String-keyed JS objects behave as insertion-ordered
  association maps, so each is embedded as a `List (String × _)` with
  first-match lookup (`alookup`), and assignment `obj[k] = v` as `aset`
  (replace in place when the key exists, append otherwise).
* `randomUUID()` is a nondeterministic source of fresh identifiers; every
  operation that draws a UUID takes it as an explicit `String` argument.
* Callbacks are opaque functions; they are embedded as an abstract type `α`
  carried inside the `EventCallback` wrapper exactly as the source stores
  them (`{async, identifier, call}`).
* Thrown `Error`s become `Except BusError`; each `BusError` constructor
  corresponds to exactly one family of `throw` sites in the source.
  `assertNonnull` failures become `BusError.AssertionFailed`.
* `emit` / `emitAsync` return the ordered list of callback entries they
  invoke ("the trace"); an `.error` result means the function threw before
  the invocation loop started, hence no callback was invoked.
* A `ScopeEntry` in the source is `{instance, frozen}`; `instance` is a
  stateless adapter holding only the bus back-reference and the scope id
  (which is the map key), so the model keeps only the `frozen : Bool` flag.
-/

deriving instance DecidableEq for Except

namespace SimpleLogger

/-- First-match lookup in an association list; embeds `obj[k]`
(`undefined` ↦ `none`) for a string-keyed JS object. -/
def alookup {β : Type _} (l : List (String × β)) (k : String) : Option β :=
  match l with
  | [] => none
  | (k', v) :: t => if k' = k then some v else alookup t k

/-- Assignment `obj[k] = v` on a string-keyed JS object: replaces the value
in place when the key exists, otherwise appends a new key. -/
def aset {β : Type _} (l : List (String × β)) (k : String) (v : β) :
    List (String × β) :=
  match l with
  | [] => [(k, v)]
  | (k', v') :: t => if k' = k then (k, v) :: t else (k', v') :: aset t k v

/-- `interface EventMetadata { name: string; allowAsync: boolean }`. -/
structure EventMetadata where
  name : String
  allowAsync : Bool
deriving DecidableEq, Repr

/-- `interface HandlerRef { eventName: string; index: number; scopeId: string }`:
the back-reference stored in `registrations` for O(1) removal. -/
structure HandlerRef where
  eventName : String
  index : Nat
  scopeId : String
deriving DecidableEq, Repr

/-- `EventCallbackSync` / `EventCallbackAsync`, merged on their `async` tag:
`{ async: boolean, identifier: UUID, call: callback }`. -/
structure EventCallback (α : Type) where
  async : Bool
  identifier : String
  call : α
deriving DecidableEq, Repr

/-- `interface HandlerList { property: EventMetadata; callbacks: Nullable<EventCallback>[] }`.
A `none` slot is a tombstone left by `off`. -/
structure HandlerList (α : Type) where
  property : EventMetadata
  callbacks : List (Option (EventCallback α))
deriving DecidableEq, Repr

/-- `interface RegistrationInfo { UUID, scopeId, eventName }` as returned by
`listCallbacks`. -/
structure RegistrationInfo where
  uuid : String
  scopeId : String
  eventName : String
deriving DecidableEq, Repr

/-- The private state of `class EventBus`: the four string-keyed records
initialised with `Object.create(null)` in the constructor. -/
structure EventBus (α : Type) where
  scopes : List (String × Bool)
  events : List (String × EventMetadata)
  handlers : List (String × HandlerList α)
  registrations : List (String × HandlerRef)
deriving DecidableEq, Repr

/-- Each constructor corresponds to one family of `throw new Error(...)`
sites in `EventBus`:
* `DuplicateEvent` — `define`: "Event '…' already exist";
* `UnknownEvent` — `onSync`/`onAsync`/`emit`/`emitAsync`: "… unknown event / not found";
* `AsyncNotAllowed` — `onAsync`: "… does not allow async callbacks";
* `UnknownCallback` — `getCallbackInfo`/`off`: "Callback with id '…' not found";
* `SyncOnAsyncEvent` — `emit`: "Cannot synchronously fire event '…' which allows async callback";
* `UnknownScope` — `freezeScope`/`unfreezeScope`/`isFrozen`: "… does not exist";
* `InvalidScopeId` — `scope`: the empty-id and the `^\w+$` mismatch throws;
* `DuplicateScope` — `scope`: "Event scope with ID '…' has already been created";
* `AssertionFailed` — `assertNonnull` (helpers.ts): "NonNullable assertion failed". -/
inductive BusError where
  | DuplicateEvent (name : String)
  | UnknownEvent (name : String)
  | AsyncNotAllowed (name : String)
  | UnknownCallback (id : String)
  | SyncOnAsyncEvent (name : String)
  | UnknownScope (name : String)
  | InvalidScopeId (id : String)
  | DuplicateScope (id : String)
  | AssertionFailed
deriving DecidableEq, Repr

/-- The scope-level `Result` error: `ScopeFrozen` and `ForeignCallback` are
the two `Err(new Error(...))` values created inside `EventScopeImpl` itself;
`Wrapped e` is a bus-level fault converted to `Err` by the `try/catch`. -/
inductive ScopeError where
  | ScopeFrozen
  | ForeignCallback
  | Wrapped (e : BusError)
deriving DecidableEq, Repr

namespace EventBus

variable {α : Type}

/-- `new EventBus()`: all four records start empty. -/
def emptyBus (α : Type) : EventBus α := ⟨[], [], [], []⟩

/-- `define(name, allowAsync)`.  (`allowAsync ?? false` is resolved by the
caller; the model takes the resulting boolean.) -/
def define (bus : EventBus α) (name : String) (allowAsync : Bool) :
    Except BusError (EventBus α) :=
  if (alookup bus.events name).isSome then
    .error (.DuplicateEvent name)
  else
    let metadata : EventMetadata := ⟨name, allowAsync⟩
    .ok { bus with
      events := aset bus.events name metadata,
      handlers := aset bus.handlers name ⟨metadata, []⟩ }

/-- `onSync(name, callback, scopeId)`; `uuid` is the value drawn from
`randomUUID()`.  Bus-level calls pass `scopeId = ""` (the `?? ""` default). -/
def onSync (bus : EventBus α) (name : String) (callback : α)
    (scopeId : String) (uuid : String) :
    Except BusError (String × EventBus α) :=
  if (alookup bus.events name).isSome then
    match alookup bus.handlers name with
    | none => .error .AssertionFailed
    | some eventCallbackList =>
      let callbackWrapped : EventCallback α := ⟨false, uuid, callback⟩
      .ok (uuid, { bus with
        registrations := aset bus.registrations uuid
          ⟨name, eventCallbackList.callbacks.length, scopeId⟩,
        handlers := aset bus.handlers name
          { eventCallbackList with
            callbacks := eventCallbackList.callbacks ++ [some callbackWrapped] } })
  else
    .error (.UnknownEvent name)

/-- `onAsync(name, callback, scopeId)`; additionally rejects events whose
`allowAsync` is false. -/
def onAsync (bus : EventBus α) (name : String) (callback : α)
    (scopeId : String) (uuid : String) :
    Except BusError (String × EventBus α) :=
  match alookup bus.events name with
  | none => .error (.UnknownEvent name)
  | some metadata =>
    if !metadata.allowAsync then
      .error (.AsyncNotAllowed name)
    else
      match alookup bus.handlers name with
      | none => .error .AssertionFailed
      | some eventCallbackList =>
        let callbackWrapped : EventCallback α := ⟨true, uuid, callback⟩
        .ok (uuid, { bus with
          registrations := aset bus.registrations uuid
            ⟨name, eventCallbackList.callbacks.length, scopeId⟩,
          handlers := aset bus.handlers name
            { eventCallbackList with
              callbacks := eventCallbackList.callbacks ++ [some callbackWrapped] } })

/-- `getCallbackInfo(identifier)`: succeeds only when the registration
record exists *and* the slot it points to is still occupied
(`if (eventCallbackList.callbacks[index])` — both a tombstoned `null` and an
out-of-range `undefined` are falsy). -/
def getCallbackInfo (bus : EventBus α) (identifier : String) :
    Except BusError (String × String) :=
  match alookup bus.registrations identifier with
  | some entry =>
    match alookup bus.handlers entry.eventName with
    | none => .error .AssertionFailed
    | some eventCallbackList =>
      if (eventCallbackList.callbacks.getD entry.index none).isSome then
        .ok (entry.eventName, entry.scopeId)
      else
        .error (.UnknownCallback identifier)
  | none => .error (.UnknownCallback identifier)

/-- `off(identifier)`: tombstones the slot (`callbacks[index] = null`).
Note that, unlike `getCallbackInfo`, the source does *not* test whether the
slot is already cleared, and it never deletes the registration record. -/
def off (bus : EventBus α) (identifier : String) :
    Except BusError (EventBus α) :=
  match alookup bus.registrations identifier with
  | some entry =>
    match alookup bus.handlers entry.eventName with
    | none => .error .AssertionFailed
    | some eventCallbackList =>
      .ok { bus with
        handlers := aset bus.handlers entry.eventName
          { eventCallbackList with
            callbacks := eventCallbackList.callbacks.set entry.index none } }
  | none => .error (.UnknownCallback identifier)

/-- `emit(name, ...args)`: the synchronous fire.  The result is the ordered
list of callback entries the loop invokes (`eventElement?.call(...)` skips
tombstones); an `.error` is thrown before the loop, so no callback runs. -/
def emit (bus : EventBus α) (name : String) :
    Except BusError (List (EventCallback α)) :=
  match alookup bus.events name with
  | some eventInfo =>
    if eventInfo.allowAsync then
      .error (.SyncOnAsyncEvent name)
    else
      match alookup bus.handlers name with
      | none => .error .AssertionFailed
      | some eventCallbackList =>
        .ok (eventCallbackList.callbacks.filterMap id)
  | none => .error (.UnknownEvent name)

/-- `emitAsync(name, ...args)`: awaits every non-tombstoned entry (sync or
async) in list order; the result is that ordered invocation trace. -/
def emitAsync (bus : EventBus α) (name : String) :
    Except BusError (List (EventCallback α)) :=
  match alookup bus.events name with
  | none => .error (.UnknownEvent name)
  | some _ =>
    match alookup bus.handlers name with
    | none => .error .AssertionFailed
    | some eventCallbackList =>
      .ok (eventCallbackList.callbacks.filterMap id)

/-- `listEvents()`: `Object.values(this.events)`. -/
def listEvents (bus : EventBus α) : List EventMetadata :=
  bus.events.map (·.2)

/-- `listCallbacks()` without filter: one `RegistrationInfo` per entry of
the `registrations` record, in insertion order. -/
def listCallbacks (bus : EventBus α) : List RegistrationInfo :=
  bus.registrations.map (fun p => ⟨p.1, p.2.scopeId, p.2.eventName⟩)

/-- `listCallbacks(filter)`: the optional caller-supplied predicate. -/
def listCallbacksFiltered (bus : EventBus α) (f : RegistrationInfo → Bool) :
    List RegistrationInfo :=
  (listCallbacks bus).filter f

/-- `freezeScope(name)`. -/
def freezeScope (bus : EventBus α) (name : String) :
    Except BusError (EventBus α) :=
  match alookup bus.scopes name with
  | none => .error (.UnknownScope name)
  | some _ => .ok { bus with scopes := aset bus.scopes name true }

/-- `unfreezeScope(name)`. -/
def unfreezeScope (bus : EventBus α) (name : String) :
    Except BusError (EventBus α) :=
  match alookup bus.scopes name with
  | none => .error (.UnknownScope name)
  | some _ => .ok { bus with scopes := aset bus.scopes name false }

/-- `isFrozen(name)`. -/
def isFrozen (bus : EventBus α) (name : String) : Except BusError Bool :=
  match alookup bus.scopes name with
  | none => .error (.UnknownScope name)
  | some frozen => .ok frozen

/-- A character matched by JavaScript's non-unicode `\w`: ASCII letters,
digits and underscore. -/
def isWordChar (c : Char) : Bool :=
  c.isUpper || c.isLower || c.isDigit || c == '_'

/-- `scope(scopeId)`: the three guards (empty id, `^\w+$`, duplicate), then
records `{instance, frozen: false}`.  The returned `EventScopeImpl` holds
only the bus back-reference and the id, so the model returns the updated
bus; the new `ScopeEntry` is its `frozen` flag. -/
def scope (bus : EventBus α) (scopeId : String) :
    Except BusError (EventBus α) :=
  if scopeId.length = 0 then
    .error (.InvalidScopeId scopeId)
  else if !(scopeId.toList.all isWordChar) then
    .error (.InvalidScopeId scopeId)
  else if (alookup bus.scopes scopeId).isSome then
    .error (.DuplicateScope scopeId)
  else
    .ok { bus with scopes := aset bus.scopes scopeId false }

/-- `EventScopeImpl.onSync`: the frozen check happens *outside* the
`try/catch` (a missing scope propagates as a fault, the outer `Except`);
bus-level throws inside the `try` are converted to the inner `Err`. -/
def scopeOnSync (bus : EventBus α) (scopeId : String) (name : String)
    (callback : α) (uuid : String) :
    Except BusError (Except ScopeError String × EventBus α) :=
  match isFrozen bus scopeId with
  | .error e => .error e
  | .ok true => .ok (.error .ScopeFrozen, bus)
  | .ok false =>
    match onSync bus name callback scopeId uuid with
    | .error e => .ok (.error (.Wrapped e), bus)
    | .ok (u, bus') => .ok (.ok u, bus')

/-- `EventScopeImpl.onAsync`. -/
def scopeOnAsync (bus : EventBus α) (scopeId : String) (name : String)
    (callback : α) (uuid : String) :
    Except BusError (Except ScopeError String × EventBus α) :=
  match isFrozen bus scopeId with
  | .error e => .error e
  | .ok true => .ok (.error .ScopeFrozen, bus)
  | .ok false =>
    match onAsync bus name callback scopeId uuid with
    | .error e => .ok (.error (.Wrapped e), bus)
    | .ok (u, bus') => .ok (.ok u, bus')

/-- `EventScopeImpl.off`: frozen check, then `getCallbackInfo` to compare
scope ids (`ForeignCallback` on mismatch), then the bus-level `off`. -/
def scopeOff (bus : EventBus α) (scopeId : String) (identifier : String) :
    Except BusError (Except ScopeError Unit × EventBus α) :=
  match isFrozen bus scopeId with
  | .error e => .error e
  | .ok true => .ok (.error .ScopeFrozen, bus)
  | .ok false =>
    match getCallbackInfo bus identifier with
    | .error e => .ok (.error (.Wrapped e), bus)
    | .ok (_, sid) =>
      if sid ≠ scopeId then
        .ok (.error .ForeignCallback, bus)
      else
        match off bus identifier with
        | .error e => .ok (.error (.Wrapped e), bus)
        | .ok bus' => .ok (.ok (), bus')

/-- `EventScopeImpl.listCallbacks`: the bus view filtered to this scope id. -/
def scopeListCallbacks (bus : EventBus α) (scopeId : String) :
    List RegistrationInfo :=
  (listCallbacks bus).filter (fun cb => cb.scopeId == scopeId)

/-- Bus states reachable through the public mutating API from `new
EventBus()`.  `emit`, `emitAsync`, `getCallbackInfo`, `isFrozen` and the
`list*` queries do not mutate the records, so they contribute no step;
the scope-level operations are included even though on success they merely
forward to the bus-level ones. -/
inductive Reachable : EventBus α → Prop where
  | init : Reachable (emptyBus α)
  | defineStep {b b' : EventBus α} {n : String} {a : Bool} :
      Reachable b → define b n a = .ok b' → Reachable b'
  | onSyncStep {b b' : EventBus α} {n sid u u' : String} {cb : α} :
      Reachable b → onSync b n cb sid u = .ok (u', b') → Reachable b'
  | onAsyncStep {b b' : EventBus α} {n sid u u' : String} {cb : α} :
      Reachable b → onAsync b n cb sid u = .ok (u', b') → Reachable b'
  | offStep {b b' : EventBus α} {u : String} :
      Reachable b → off b u = .ok b' → Reachable b'
  | freezeStep {b b' : EventBus α} {sid : String} :
      Reachable b → freezeScope b sid = .ok b' → Reachable b'
  | unfreezeStep {b b' : EventBus α} {sid : String} :
      Reachable b → unfreezeScope b sid = .ok b' → Reachable b'
  | scopeStep {b b' : EventBus α} {sid : String} :
      Reachable b → scope b sid = .ok b' → Reachable b'
  | scopeOnSyncStep {b b' : EventBus α} {sid n u : String} {cb : α}
      {r : Except ScopeError String} :
      Reachable b → scopeOnSync b sid n cb u = .ok (r, b') → Reachable b'
  | scopeOnAsyncStep {b b' : EventBus α} {sid n u : String} {cb : α}
      {r : Except ScopeError String} :
      Reachable b → scopeOnAsync b sid n cb u = .ok (r, b') → Reachable b'
  | scopeOffStep {b b' : EventBus α} {sid u : String}
      {r : Except ScopeError Unit} :
      Reachable b → scopeOff b sid u = .ok (r, b') → Reachable b'

/-- The structural invariant tying the `events` catalog to the `handlers`
record: handler lists exist exactly for defined events, carry the same
metadata object, and an event that forbids async callbacks stores only
entries tagged `async = false`. -/
def WF (bus : EventBus α) : Prop :=
  (∀ n hl, alookup bus.handlers n = some hl →
      alookup bus.events n = some hl.property) ∧
  (∀ n, (alookup bus.events n).isSome → (alookup bus.handlers n).isSome) ∧
  (∀ n hl, alookup bus.handlers n = some hl →
      hl.property.allowAsync = false →
      ∀ o ∈ hl.callbacks, ∀ c, o = some c → c.async = false)

/-! ### Concrete states used by witnesses and counterexamples

`busE0` is the bus right after `define("e", false)`; `busE1` additionally
holds one synchronous callback (abstracted as the value `0`) registered
directly on the bus under handle `"u"`; `busE1c` is `busE1` after
`off("u")` (tombstoned slot, registration record kept).  `busSF` is a bus
with a frozen scope `"s1"`, an event `"e"` (sync) and an async-capable
event `"a"`, plus one callback registered through `"s1"` on `"e"`. -/

def busE0 : EventBus Nat :=
  ⟨[], [("e", ⟨"e", false⟩)], [("e", ⟨⟨"e", false⟩, []⟩)], []⟩

def busE1 : EventBus Nat :=
  ⟨[], [("e", ⟨"e", false⟩)],
    [("e", ⟨⟨"e", false⟩, [some ⟨false, "u", 0⟩]⟩)],
    [("u", ⟨"e", 0, ""⟩)]⟩

def busE1c : EventBus Nat :=
  ⟨[], [("e", ⟨"e", false⟩)],
    [("e", ⟨⟨"e", false⟩, [none]⟩)],
    [("u", ⟨"e", 0, ""⟩)]⟩

def busE2 : EventBus Nat :=
  ⟨[], [("e", ⟨"e", false⟩)],
    [("e", ⟨⟨"e", false⟩, [some ⟨false, "u", 0⟩, some ⟨false, "u2", 5⟩]⟩)],
    [("u", ⟨"e", 0, ""⟩), ("u2", ⟨"e", 1, ""⟩)]⟩

def busSF : EventBus Nat :=
  ⟨[("s1", true)],
    [("e", ⟨"e", false⟩), ("a", ⟨"a", true⟩)],
    [("e", ⟨⟨"e", false⟩, [some ⟨false, "u", 0⟩]⟩), ("a", ⟨⟨"a", true⟩, []⟩)],
    [("u", ⟨"e", 0, "s1"⟩)]⟩

end EventBus

/-! ### Heap-aware model of the events catalog (for `listEvents` aliasing)

`Object.values(this.events)` returns a *fresh array* whose elements are the
*same* `EventMetadata` objects stored in the catalog (JS objects are
mutable reference values, and `define` also stores the same object into
`handlers[name].property`).  To reason about mutations performed through a
returned reference, this model makes the references explicit: the catalog
maps names to addresses into a store of metadata objects, `listEvents`
returns the list of addresses, and field assignment through a reference
updates the shared store. -/

/-- Replace the element at index `i` by `f` applied to it (no-op out of
range). -/
def modifyAt {β : Type _} (l : List β) (i : Nat) (f : β → β) : List β :=
  match l, i with
  | [], _ => []
  | x :: t, 0 => f x :: t
  | x :: t, i + 1 => x :: modifyAt t i f

/-- The `events` record with object references made explicit: `store` holds
the `EventMetadata` objects (address = index), `byName` is the
string-keyed record mapping each event name to the address of its object. -/
structure EventsHeap where
  store : List EventMetadata
  byName : List (String × Nat)
deriving DecidableEq, Repr

namespace EventsHeap

/-- `define(name, allowAsync)` restricted to the catalog: allocates a fresh
metadata object and records the reference under `name`. -/
def define (h : EventsHeap) (name : String) (allowAsync : Bool) :
    Except BusError EventsHeap :=
  if (alookup h.byName name).isSome then
    .error (.DuplicateEvent name)
  else
    .ok ⟨h.store ++ [⟨name, allowAsync⟩], aset h.byName name h.store.length⟩

/-- `listEvents()`: `Object.values(this.events)` — a fresh array containing
the stored references themselves. -/
def listEvents (h : EventsHeap) : List Nat :=
  h.byName.map (·.2)

/-- Dereference a metadata object. -/
def deref (h : EventsHeap) (a : Nat) : Option EventMetadata :=
  h.store.get? a

/-- `md.allowAsync = b` executed through a reference `a` (e.g. one taken
from the array `listEvents` returned): updates the shared store. -/
def setAllowAsync (h : EventsHeap) (a : Nat) (b : Bool) : EventsHeap :=
  ⟨modifyAt h.store a (fun m => { m with allowAsync := b }), h.byName⟩

end EventsHeap

/-! ## Generic lemmas about the record and list embedding -/

theorem alookup_aset_self {β : Type _} (l : List (String × β)) (k : String)
    (v : β) : alookup (aset l k v) k = some v := by
  induction l with
  | nil => simp [aset, alookup]
  | cons p t ih =>
    obtain ⟨k', v'⟩ := p
    by_cases h : k' = k
    · simp [aset, h, alookup]
    · simp [aset, h, alookup, ih]

theorem alookup_aset_ne {β : Type _} (l : List (String × β)) (k k' : String)
    (v : β) (h : k' ≠ k) : alookup (aset l k v) k' = alookup l k' := by
  induction l with
  | nil => simp [aset, alookup, Ne.symm h]
  | cons p t ih =>
    obtain ⟨k₀, v₀⟩ := p
    by_cases h0 : k₀ = k
    · subst h0
      simp [aset, alookup, Ne.symm h]
    · simp only [aset, if_neg h0, alookup]
      by_cases h1 : k₀ = k'
      · simp [h1]
      · simp [h1, ih]

theorem alookup_mem {β : Type _} {l : List (String × β)} {k : String}
    {v : β} (h : alookup l k = some v) : (k, v) ∈ l := by
  induction l with
  | nil => simp [alookup] at h
  | cons p t ih =>
    obtain ⟨k', v'⟩ := p
    by_cases hk : k' = k
    · subst hk
      simp [alookup] at h
      subst h
      exact List.mem_cons_self _ _
    · simp only [alookup, if_neg hk] at h
      exact List.mem_cons_of_mem _ (ih h)

theorem getD_set_none {β : Type _} (l : List (Option β)) (i : Nat) :
    (l.set i none).getD i none = none := by
  induction l generalizing i with
  | nil => simp
  | cons x t ih =>
    cases i with
    | zero => simp
    | succ j => simpa using ih j

theorem getD_set_ne {β : Type _} (l : List β) (i j : Nat) (x d : β)
    (h : i ≠ j) : (l.set i x).getD j d = l.getD j d := by
  induction l generalizing i j with
  | nil => simp
  | cons y t ih =>
    cases i with
    | zero =>
      cases j with
      | zero => exact absurd rfl h
      | succ j' => simp
    | succ i' =>
      cases j with
      | zero => simp
      | succ j' =>
        simpa using ih i' j' (fun hh => h (by omega))

theorem mem_set_none {β : Type _} (l : List (Option β)) (i : Nat)
    (x : Option β) (h : x ∈ l.set i none) : x = none ∨ x ∈ l := by
  induction l generalizing i with
  | nil => simp at h
  | cons y t ih =>
    cases i with
    | zero =>
      rcases List.mem_cons.1 h with h1 | h1
      · exact Or.inl h1
      · exact Or.inr (List.mem_cons_of_mem _ h1)
    | succ j =>
      rcases List.mem_cons.1 h with h1 | h1
      · exact Or.inr (h1 ▸ List.mem_cons_self _ _)
      · rcases ih j h1 with h2 | h2
        · exact Or.inl h2
        · exact Or.inr (List.mem_cons_of_mem _ h2)

theorem filterMap_id_range {β : Type _} (l : List (Option β)) :
    l.filterMap id =
      (List.range l.length).filterMap (fun i => l.getD i none) := by
  induction l with
  | nil => simp
  | cons x t ih =>
    rw [List.length_cons, List.range_succ_eq_map, List.filterMap_cons,
        List.filterMap_cons, List.filterMap_map]
    have hcomp :
        ((fun i => (x :: t).getD i none) ∘ Nat.succ) =
          fun i => t.getD i none := by
      funext i
      simp
    rw [hcomp]
    cases x with
    | none => simpa using ih
    | some b => simpa using ih

theorem string_length_eq_zero {s : String} : s.length = 0 ↔ s = "" := by
  cases s with
  | mk data => simp [String.length, String.ext_iff]

/-! ## Inversion lemmas for the bus operations -/

namespace EventBus

variable {α : Type}

theorem define_inv {b b' : EventBus α} {n : String} {a : Bool}
    (h : define b n a = .ok b') :
    alookup b.events n = none ∧
    b' = { b with
      events := aset b.events n ⟨n, a⟩,
      handlers := aset b.handlers n ⟨⟨n, a⟩, []⟩ } := by
  unfold define at h
  by_cases he : (alookup b.events n).isSome
  · rw [if_pos he] at h
    simp at h
  · rw [if_neg he] at h
    simp at h
    exact ⟨Option.not_isSome_iff_eq_none.1 he, h.symm⟩

theorem onSync_inv {b b' : EventBus α} {n sid u u' : String} {cb : α}
    (h : onSync b n cb sid u = .ok (u', b')) :
    ∃ hl, (alookup b.events n).isSome ∧ alookup b.handlers n = some hl ∧
      u' = u ∧
      b' = { b with
        registrations :=
          aset b.registrations u ⟨n, hl.callbacks.length, sid⟩,
        handlers := aset b.handlers n
          { hl with callbacks := hl.callbacks ++ [some ⟨false, u, cb⟩] } } := by
  unfold onSync at h
  by_cases he : (alookup b.events n).isSome
  · rw [if_pos he] at h
    cases hh : alookup b.handlers n with
    | none => rw [hh] at h; simp at h
    | some hl =>
      rw [hh] at h
      simp at h
      exact ⟨hl, he, rfl, h.1.symm, h.2.symm⟩
  · rw [if_neg he] at h
    simp at h

theorem onAsync_inv {b b' : EventBus α} {n sid u u' : String} {cb : α}
    (h : onAsync b n cb sid u = .ok (u', b')) :
    ∃ md hl, alookup b.events n = some md ∧ md.allowAsync = true ∧
      alookup b.handlers n = some hl ∧ u' = u ∧
      b' = { b with
        registrations :=
          aset b.registrations u ⟨n, hl.callbacks.length, sid⟩,
        handlers := aset b.handlers n
          { hl with callbacks := hl.callbacks ++ [some ⟨true, u, cb⟩] } } := by
  unfold onAsync at h
  cases he : alookup b.events n with
  | none => rw [he] at h; simp at h
  | some md =>
    rw [he] at h
    dsimp only at h
    by_cases ha : md.allowAsync
    · rw [ha] at h
      simp only [Bool.not_true] at h
      cases hh : alookup b.handlers n with
      | none => rw [hh] at h; simp at h
      | some hl =>
        rw [hh] at h
        simp at h
        exact ⟨md, hl, rfl, ha, rfl, h.1.symm, h.2.symm⟩
    · rw [Bool.not_eq_true] at ha
      rw [ha] at h
      simp at h

theorem off_inv {b b' : EventBus α} {u : String}
    (h : off b u = .ok b') :
    ∃ r hl, alookup b.registrations u = some r ∧
      alookup b.handlers r.eventName = some hl ∧
      b' = { b with
        handlers := aset b.handlers r.eventName
          { hl with callbacks := hl.callbacks.set r.index none } } := by
  unfold off at h
  cases hr : alookup b.registrations u with
  | none => rw [hr] at h; simp at h
  | some r =>
    rw [hr] at h
    dsimp only at h
    cases hh : alookup b.handlers r.eventName with
    | none => rw [hh] at h; simp at h
    | some hl =>
      rw [hh] at h
      simp at h
      exact ⟨r, hl, rfl, hh, h.symm⟩

theorem freezeScope_inv {b b' : EventBus α} {sid : String}
    (h : freezeScope b sid = .ok b') :
    (alookup b.scopes sid).isSome ∧
    b' = { b with scopes := aset b.scopes sid true } := by
  unfold freezeScope at h
  cases hs : alookup b.scopes sid with
  | none => rw [hs] at h; simp at h
  | some f => rw [hs] at h; simp at h; exact ⟨by simp [hs], h.symm⟩

theorem unfreezeScope_inv {b b' : EventBus α} {sid : String}
    (h : unfreezeScope b sid = .ok b') :
    (alookup b.scopes sid).isSome ∧
    b' = { b with scopes := aset b.scopes sid false } := by
  unfold unfreezeScope at h
  cases hs : alookup b.scopes sid with
  | none => rw [hs] at h; simp at h
  | some f => rw [hs] at h; simp at h; exact ⟨by simp [hs], h.symm⟩

theorem scope_inv {b b' : EventBus α} {sid : String}
    (h : scope b sid = .ok b') :
    sid ≠ "" ∧ sid.toList.all isWordChar = true ∧
    alookup b.scopes sid = none ∧
    b' = { b with scopes := aset b.scopes sid false } := by
  unfold scope at h
  by_cases h0 : sid.length = 0
  · rw [if_pos h0] at h; simp at h
  · rw [if_neg h0] at h
    by_cases h1 : sid.toList.all isWordChar
    · rw [h1] at h
      simp only [Bool.not_true, Bool.false_eq_true, if_false] at h
      by_cases h2 : (alookup b.scopes sid).isSome
      · rw [if_pos h2] at h; simp at h
      · rw [if_neg h2] at h
        simp at h
        exact ⟨fun he => h0 (string_length_eq_zero.2 he), h1,
          Option.not_isSome_iff_eq_none.1 h2, h.symm⟩
    · rw [Bool.not_eq_true] at h1
      rw [h1] at h
      simp at h

/-- On success, a scope-level registration or removal either leaves the bus
unchanged (frozen / bus-level failure caught) or performs exactly the
corresponding bus-level operation. -/
theorem scopeOnSync_ok {b b' : EventBus α} {sid n u : String} {cb : α}
    {r : Except ScopeError String}
    (h : scopeOnSync b sid n cb u = .ok (r, b')) :
    b' = b ∨ ∃ u', onSync b n cb sid u = .ok (u', b') := by
  unfold scopeOnSync at h
  cases hf : isFrozen b sid with
  | error e => rw [hf] at h; simp at h
  | ok fz =>
    rw [hf] at h
    cases fz with
    | true => simp at h; exact Or.inl h.2.symm
    | false =>
      cases ho : onSync b n cb sid u with
      | error e => rw [ho] at h; simp at h; exact Or.inl h.2.symm
      | ok p =>
        obtain ⟨u', b''⟩ := p
        rw [ho] at h
        simp at h
        exact Or.inr ⟨u', by rw [← h.2]⟩

theorem scopeOnAsync_ok {b b' : EventBus α} {sid n u : String} {cb : α}
    {r : Except ScopeError String}
    (h : scopeOnAsync b sid n cb u = .ok (r, b')) :
    b' = b ∨ ∃ u', onAsync b n cb sid u = .ok (u', b') := by
  unfold scopeOnAsync at h
  cases hf : isFrozen b sid with
  | error e => rw [hf] at h; simp at h
  | ok fz =>
    rw [hf] at h
    cases fz with
    | true => simp at h; exact Or.inl h.2.symm
    | false =>
      cases ho : onAsync b n cb sid u with
      | error e => rw [ho] at h; simp at h; exact Or.inl h.2.symm
      | ok p =>
        obtain ⟨u', b''⟩ := p
        rw [ho] at h
        simp at h
        exact Or.inr ⟨u', by rw [← h.2]⟩

theorem scopeOff_ok {b b' : EventBus α} {sid u : String}
    {r : Except ScopeError Unit}
    (h : scopeOff b sid u = .ok (r, b')) :
    b' = b ∨ off b u = .ok b' := by
  unfold scopeOff at h
  cases hf : isFrozen b sid with
  | error e => rw [hf] at h; simp at h
  | ok fz =>
    rw [hf] at h
    cases fz with
    | true => simp at h; exact Or.inl h.2.symm
    | false =>
      cases hg : getCallbackInfo b u with
      | error e => rw [hg] at h; simp at h; exact Or.inl h.2.symm
      | ok p =>
        obtain ⟨en, s⟩ := p
        rw [hg] at h
        dsimp only at h
        by_cases hs : s ≠ sid
        · rw [if_pos hs] at h; simp at h; exact Or.inl h.2.symm
        · rw [if_neg hs] at h
          cases ho : off b u with
          | error e => rw [ho] at h; simp at h; exact Or.inl h.2.symm
          | ok b'' =>
            rw [ho] at h
            simp at h
            exact Or.inr (by rw [← h.2])

/-! ## Preservation of the structural invariant -/

theorem wf_empty : WF (emptyBus α) := by
  refine ⟨?_, ?_, ?_⟩ <;> intro n <;> simp [emptyBus, alookup]

theorem wf_define {b b' : EventBus α} {n : String} {a : Bool}
    (hwf : WF b) (h : define b n a = .ok b') : WF b' := by
  obtain ⟨he, hb⟩ := define_inv h
  obtain ⟨w1, w2, w3⟩ := hwf
  subst hb
  refine ⟨?_, ?_, ?_⟩
  · intro m hl hm
    by_cases hmn : m = n
    · subst hmn
      rw [alookup_aset_self] at hm ⊢
      cases hm
      rfl
    · rw [alookup_aset_ne _ _ _ _ hmn] at hm
      rw [alookup_aset_ne _ _ _ _ hmn]
      exact w1 m hl hm
  · intro m hm
    by_cases hmn : m = n
    · subst hmn
      rw [alookup_aset_self]
      rfl
    · rw [alookup_aset_ne _ _ _ _ hmn] at hm
      rw [alookup_aset_ne _ _ _ _ hmn]
      exact w2 m hm
  · intro m hl hm hasync o ho c hc
    by_cases hmn : m = n
    · subst hmn
      rw [alookup_aset_self] at hm
      cases hm
      simp at ho
    · rw [alookup_aset_ne _ _ _ _ hmn] at hm
      exact w3 m hl hm hasync o ho c hc

theorem wf_onSync {b b' : EventBus α} {n sid u u' : String} {cb : α}
    (hwf : WF b) (h : onSync b n cb sid u = .ok (u', b')) : WF b' := by
  obtain ⟨hl, he, hh, hu, hb⟩ := onSync_inv h
  obtain ⟨w1, w2, w3⟩ := hwf
  subst hb
  refine ⟨?_, ?_, ?_⟩
  · intro m hl' hm
    by_cases hmn : m = n
    · subst hmn
      rw [alookup_aset_self] at hm
      cases hm
      exact w1 _ hl hh
    · rw [alookup_aset_ne _ _ _ _ hmn] at hm
      exact w1 m hl' hm
  · intro m hm
    by_cases hmn : m = n
    · subst hmn
      rw [alookup_aset_self]
      rfl
    · rw [alookup_aset_ne _ _ _ _ hmn]
      exact w2 m hm
  · intro m hl' hm hasync o ho c hc
    by_cases hmn : m = n
    · subst hmn
      rw [alookup_aset_self] at hm
      cases hm
      rcases List.mem_append.1 ho with h1 | h1
      · exact w3 _ hl hh hasync o h1 c hc
      · simp at h1
        subst h1
        cases hc
        rfl
    · rw [alookup_aset_ne _ _ _ _ hmn] at hm
      exact w3 m hl' hm hasync o ho c hc

theorem wf_onAsync {b b' : EventBus α} {n sid u u' : String} {cb : α}
    (hwf : WF b) (h : onAsync b n cb sid u = .ok (u', b')) : WF b' := by
  obtain ⟨md, hl, he, ha, hh, hu, hb⟩ := onAsync_inv h
  obtain ⟨w1, w2, w3⟩ := hwf
  have hprop : hl.property = md := by
    have := w1 n hl hh
    rw [he] at this
    exact (Option.some.inj this).symm
  subst hb
  refine ⟨?_, ?_, ?_⟩
  · intro m hl' hm
    by_cases hmn : m = n
    · subst hmn
      rw [alookup_aset_self] at hm
      cases hm
      exact w1 _ hl hh
    · rw [alookup_aset_ne _ _ _ _ hmn] at hm
      exact w1 m hl' hm
  · intro m hm
    by_cases hmn : m = n
    · subst hmn
      rw [alookup_aset_self]
      rfl
    · rw [alookup_aset_ne _ _ _ _ hmn]
      exact w2 m hm
  · intro m hl' hm hasync o ho c hc
    by_cases hmn : m = n
    · subst hmn
      rw [alookup_aset_self] at hm
      cases hm
      dsimp at hasync
      rw [hprop, ha] at hasync
      cases hasync
    · rw [alookup_aset_ne _ _ _ _ hmn] at hm
      exact w3 m hl' hm hasync o ho c hc

theorem wf_off {b b' : EventBus α} {u : String}
    (hwf : WF b) (h : off b u = .ok b') : WF b' := by
  obtain ⟨r, hl, hr, hh, hb⟩ := off_inv h
  obtain ⟨w1, w2, w3⟩ := hwf
  subst hb
  refine ⟨?_, ?_, ?_⟩
  · intro m hl' hm
    by_cases hmn : m = r.eventName
    · subst hmn
      rw [alookup_aset_self] at hm
      cases hm
      exact w1 _ hl hh
    · rw [alookup_aset_ne _ _ _ _ hmn] at hm
      exact w1 m hl' hm
  · intro m hm
    by_cases hmn : m = r.eventName
    · subst hmn
      rw [alookup_aset_self]
      rfl
    · rw [alookup_aset_ne _ _ _ _ hmn]
      exact w2 m hm
  · intro m hl' hm hasync o ho c hc
    by_cases hmn : m = r.eventName
    · subst hmn
      rw [alookup_aset_self] at hm
      cases hm
      rcases mem_set_none _ _ _ ho with h1 | h1
      · subst h1
        cases hc
      · exact w3 _ hl hh hasync o h1 c hc
    · rw [alookup_aset_ne _ _ _ _ hmn] at hm
      exact w3 m hl' hm hasync o ho c hc

/-- Operations that only touch the `scopes` record preserve `WF`. -/
theorem wf_scopes_only {b b' : EventBus α}
    (hwf : WF b) (hev : b'.events = b.events) (hh : b'.handlers = b.handlers) :
    WF b' := by
  obtain ⟨w1, w2, w3⟩ := hwf
  exact ⟨fun n hl hm => hev ▸ w1 n hl (hh ▸ hm),
    fun n hm => hh ▸ w2 n (hev ▸ hm),
    fun n hl hm => w3 n hl (hh ▸ hm)⟩

/-- Every reachable bus state satisfies the structural invariant. -/
theorem wf_reachable {b : EventBus α} (h : Reachable b) : WF b := by
  induction h with
  | init => exact wf_empty
  | defineStep _ hs ih => exact wf_define ih hs
  | onSyncStep _ hs ih => exact wf_onSync ih hs
  | onAsyncStep _ hs ih => exact wf_onAsync ih hs
  | offStep _ hs ih => exact wf_off ih hs
  | freezeStep _ hs ih =>
    obtain ⟨_, hb⟩ := freezeScope_inv hs
    subst hb
    exact wf_scopes_only ih rfl rfl
  | unfreezeStep _ hs ih =>
    obtain ⟨_, hb⟩ := unfreezeScope_inv hs
    subst hb
    exact wf_scopes_only ih rfl rfl
  | scopeStep _ hs ih =>
    obtain ⟨_, _, _, hb⟩ := scope_inv hs
    subst hb
    exact wf_scopes_only ih rfl rfl
  | scopeOnSyncStep _ hs ih =>
    rcases scopeOnSync_ok hs with hb | ⟨u', hb⟩
    · subst hb; exact ih
    · exact wf_onSync ih hb
  | scopeOnAsyncStep _ hs ih =>
    rcases scopeOnAsync_ok hs with hb | ⟨u', hb⟩
    · subst hb; exact ih
    · exact wf_onAsync ih hb
  | scopeOffStep _ hs ih =>
    rcases scopeOff_ok hs with hb | hb
    · subst hb; exact ih
    · exact wf_off ih hb


/-! ## Further helper lemmas -/

theorem aset_aset {β : Type _} (l : List (String × β)) (k : String)
    (v v' : β) : aset (aset l k v) k v' = aset l k v' := by
  induction l with
  | nil => simp [aset]
  | cons p t ih =>
    obtain ⟨k0, v0⟩ := p
    by_cases h : k0 = k
    · simp [aset, h]
    · simp [aset, h, ih]

theorem emit_inv {bus : EventBus α} {n : String}
    {tr : List (EventCallback α)} (h : emit bus n = .ok tr) :
    ∃ md hl, alookup bus.events n = some md ∧ md.allowAsync = false ∧
      alookup bus.handlers n = some hl ∧ tr = hl.callbacks.filterMap id := by
  unfold emit at h
  cases he : alookup bus.events n with
  | none => rw [he] at h; simp at h
  | some md =>
    rw [he] at h
    dsimp only at h
    by_cases ha : md.allowAsync
    · rw [ha] at h; simp at h
    · rw [Bool.not_eq_true] at ha
      rw [ha] at h
      simp only [Bool.false_eq_true, if_false] at h
      cases hh : alookup bus.handlers n with
      | none => rw [hh] at h; simp at h
      | some hl =>
        rw [hh] at h
        simp at h
        exact ⟨md, hl, rfl, ha, rfl, h.symm⟩

/-- `busE1` is reachable: `define("e", false)` then a bus-level
`onSync("e", cb)` drawing the handle `"u"`. -/
theorem reachable_busE1 : Reachable busE1 := by
  have h1 : define (emptyBus Nat) "e" false = .ok busE0 := by decide
  have h2 : onSync busE0 "e" (0 : Nat) "" "u" = .ok ("u", busE1) := by decide
  exact Reachable.onSyncStep (Reachable.defineStep Reachable.init h1) h2

end EventBus

theorem get?_modifyAt {β : Type _} (l : List β) (i : Nat) (f : β → β) :
    (modifyAt l i f).get? i = (l.get? i).map f := by
  induction l generalizing i with
  | nil => simp [modifyAt]
  | cons x t ih =>
    cases i with
    | zero => simp [modifyAt]
    | succ j => simpa [modifyAt] using ih j


namespace EventBus

variable {α : Type}

theorem onSync_ok_of (bus : EventBus α) {n : String} (cb : α)
    (sid u : String) {hl : HandlerList α}
    (he : (alookup bus.events n).isSome = true)
    (hh : alookup bus.handlers n = some hl) :
    onSync bus n cb sid u = .ok (u, { bus with
      registrations :=
        aset bus.registrations u ⟨n, hl.callbacks.length, sid⟩,
      handlers := aset bus.handlers n
        { hl with callbacks := hl.callbacks ++ [some ⟨false, u, cb⟩] } }) := by
  unfold onSync
  rw [if_pos he, hh]

theorem onAsync_ok_of (bus : EventBus α) {n : String} (cb : α)
    (sid u : String) {md : EventMetadata} {hl : HandlerList α}
    (he : alookup bus.events n = some md) (ha : md.allowAsync = true)
    (hh : alookup bus.handlers n = some hl) :
    onAsync bus n cb sid u = .ok (u, { bus with
      registrations :=
        aset bus.registrations u ⟨n, hl.callbacks.length, sid⟩,
      handlers := aset bus.handlers n
        { hl with callbacks := hl.callbacks ++ [some ⟨true, u, cb⟩] } }) := by
  unfold onAsync
  rw [he]
  dsimp only
  rw [if_neg (by simp [ha]), hh]

theorem off_ok_of (bus : EventBus α) {u : String} {r : HandlerRef}
    {hl : HandlerList α}
    (hr : alookup bus.registrations u = some r)
    (hh : alookup bus.handlers r.eventName = some hl) :
    off bus u = .ok { bus with
      handlers := aset bus.handlers r.eventName
        { hl with callbacks := hl.callbacks.set r.index none } } := by
  unfold off
  rw [hr]
  dsimp only
  rw [hh]

theorem getCallbackInfo_ok_of (bus : EventBus α) {u : String}
    {r : HandlerRef} {hl : HandlerList α}
    (hr : alookup bus.registrations u = some r)
    (hh : alookup bus.handlers r.eventName = some hl)
    (hs : (hl.callbacks.getD r.index none).isSome = true) :
    getCallbackInfo bus u = .ok (r.eventName, r.scopeId) := by
  unfold getCallbackInfo
  rw [hr]
  dsimp only
  rw [hh]
  dsimp only
  rw [if_pos hs]

end EventBus

/-! ## The claims -/

namespace EventBus

variable {α : Type}

/-- **C1, counterexample.**  On `busE1` (event `"e"` with the single
callback handle `"u"`), the first bus-level `off` succeeds and tombstones
the slot; but a second `off` with the same handle does *not* fail with
`UnknownCallback` — it silently succeeds again (a no-op), because the
registration record is never deleted and `off`, unlike `getCallbackInfo`,
never tests whether the slot is already cleared.  This refutes the claim
that removal never silently succeeds a second time. -/
theorem C1_counterexample :
    off busE1 "u" = .ok busE1c ∧
    off busE1c "u" = .ok busE1c ∧
    off busE1c "u" ≠ .error (.UnknownCallback "u") := by decide

/-- **C1, amended.**  Bus-level `off` with a handle that was never issued
fails with `UnknownCallback`; with an issued handle it succeeds and clears
the slot in place; calling `off` again with the same handle silently
succeeds again and leaves the state exactly as after the first removal
(second `off` is an idempotent no-op, not an `UnknownCallback` failure). -/
theorem C1_off_amended (bus : EventBus α) (u : String) :
    (alookup bus.registrations u = none →
      off bus u = .error (.UnknownCallback u)) ∧
    (∀ r hl, alookup bus.registrations u = some r →
      alookup bus.handlers r.eventName = some hl →
      off bus u = .ok { bus with
        handlers := aset bus.handlers r.eventName
          { hl with callbacks := hl.callbacks.set r.index none } }) ∧
    (∀ b', off bus u = .ok b' → off b' u = .ok b') := by
  refine ⟨?_, ?_, ?_⟩
  · intro h
    unfold off
    rw [h]
  · intro r hl hr hh
    unfold off
    rw [hr]
    dsimp only
    rw [hh]
  · intro b' hb
    obtain ⟨r, hl, hr, hh, hb2⟩ := off_inv hb
    subst hb2
    unfold off
    dsimp only
    rw [hr]
    dsimp only
    rw [alookup_aset_self]
    dsimp only
    simp [aset_aset, List.set_set]

/-- Witness for C1's amended theorem at the concrete bus `busE1`. -/
theorem C1_off_amended_witness :
    alookup busE1.registrations "w" = none ∧
    off busE1 "w" = .error (.UnknownCallback "w") ∧
    off busE1 "u" = .ok busE1c ∧
    off busE1c "u" = .ok busE1c :=
  ⟨by decide, (C1_off_amended busE1 "w").1 (by decide),
    (C1_off_amended busE1 "u").2.1 ⟨"e", 0, ""⟩
      ⟨⟨"e", false⟩, [some ⟨false, "u", 0⟩]⟩ (by decide) (by decide),
    (C1_off_amended busE1 "u").2.2 busE1c (by decide)⟩

/-- **C2.**  `fireSync` (`emit`) on an event defined with
`allowAsync = true` always fails with `SyncOnAsyncEvent`.  The check sits
before the invocation loop, so the failing call produces no invocation
trace: no callback is invoked, not even part of the list. -/
theorem C2_fireSync_on_async_event (bus : EventBus α) (n : String)
    (md : EventMetadata) (h1 : alookup bus.events n = some md)
    (h2 : md.allowAsync = true) :
    emit bus n = .error (.SyncOnAsyncEvent n) := by
  unfold emit
  rw [h1]
  dsimp only
  rw [h2]
  simp

/-- Witness for C2 at the concrete bus `busSF`, whose event `"a"` was
defined with `allowAsync = true`. -/
theorem C2_witness :
    alookup busSF.events "a" = some ⟨"a", true⟩ ∧
    emit busSF "a" = .error (.SyncOnAsyncEvent "a") :=
  ⟨by decide, C2_fireSync_on_async_event busSF "a" ⟨"a", true⟩ (by decide) rfl⟩

end EventBus


namespace EventBus

/-- **C6.**  `createScope` (`scope`) fails with `InvalidScopeId` whenever
the id is empty or contains a character outside letters, digits and
underscore (JavaScript `^\\w+$`); fails with `DuplicateScope` for a
well-formed id that was already created; and for a well-formed fresh id
succeeds, recording the scope with its `frozen` flag set to `false`. -/
theorem C6_createScope {α : Type} (bus : EventBus α) (sid : String) :
    ((sid = "" ∨ sid.toList.all isWordChar = false) →
      scope bus sid = .error (.InvalidScopeId sid)) ∧
    (sid ≠ "" → sid.toList.all isWordChar = true →
      (alookup bus.scopes sid).isSome →
      scope bus sid = .error (.DuplicateScope sid)) ∧
    (sid ≠ "" → sid.toList.all isWordChar = true →
      alookup bus.scopes sid = none →
      scope bus sid = .ok { bus with scopes := aset bus.scopes sid false }) := by
  refine ⟨?_, ?_, ?_⟩
  · rintro (h | h)
    · subst h
      rfl
    · unfold scope
      by_cases h0 : sid.length = 0
      · rw [if_pos h0]
      · rw [if_neg h0, h]
        simp
  · intro h0 hall hdup
    unfold scope
    rw [if_neg (fun hl => h0 (string_length_eq_zero.1 hl)), hall]
    simp only [Bool.not_true, Bool.false_eq_true, if_false]
    rw [if_pos hdup]
  · intro h0 hall hfresh
    unfold scope
    rw [if_neg (fun hl => h0 (string_length_eq_zero.1 hl)), hall]
    simp only [Bool.not_true, Bool.false_eq_true, if_false]
    rw [if_neg (by simp [hfresh])]

/-- Witness for C6: `"abc_1"` succeeds on the empty bus; `""`,
`"has space"` and `"has-dash"` fail with `InvalidScopeId`; creating
`"abc_1"` twice fails with `DuplicateScope`. -/
theorem C6_witness :
    scope (emptyBus Nat) "abc_1" = .ok ⟨[("abc_1", false)], [], [], []⟩ ∧
    scope (emptyBus Nat) "" = .error (.InvalidScopeId "") ∧
    scope (emptyBus Nat) "has space" = .error (.InvalidScopeId "has space") ∧
    scope (emptyBus Nat) "has-dash" = .error (.InvalidScopeId "has-dash") ∧
    scope (⟨[("abc_1", false)], [], [], []⟩ : EventBus Nat) "abc_1" =
      .error (.DuplicateScope "abc_1") :=
  ⟨(C6_createScope (emptyBus Nat) "abc_1").2.2 (by decide) (by decide)
      (by decide),
    (C6_createScope (emptyBus Nat) "").1 (Or.inl rfl),
    (C6_createScope (emptyBus Nat) "has space").1 (Or.inr (by decide)),
    (C6_createScope (emptyBus Nat) "has-dash").1 (Or.inr (by decide)),
    (C6_createScope (⟨[("abc_1", false)], [], [], []⟩ : EventBus Nat)
      "abc_1").2.1 (by decide) (by decide) (by decide)⟩

/-- **C7.**  `freezeScope` / `unfreezeScope` fail with `UnknownScope` if
and only if the scope was never created; on success they produce exactly
the bus whose `scopes` record has that one flag set (resp. cleared):
`events`, `handlers` (so no callback is removed) and `registrations` are
the very same records, the named scope's flag becomes `true` (resp.
`false`), and every other scope's flag is unchanged. -/
theorem C7_freeze_unfreeze {α : Type} (bus : EventBus α) (sid : String) :
    (alookup bus.scopes sid = none ↔
      freezeScope bus sid = .error (.UnknownScope sid)) ∧
    (alookup bus.scopes sid = none ↔
      unfreezeScope bus sid = .error (.UnknownScope sid)) ∧
    (∀ f, alookup bus.scopes sid = some f →
      freezeScope bus sid =
        .ok { bus with scopes := aset bus.scopes sid true } ∧
      ({ bus with scopes := aset bus.scopes sid true } : EventBus α).events
          = bus.events ∧
      ({ bus with scopes := aset bus.scopes sid true } : EventBus α).handlers
          = bus.handlers ∧
      ({ bus with
          scopes := aset bus.scopes sid true } : EventBus α).registrations
          = bus.registrations ∧
      alookup (aset bus.scopes sid true) sid = some true ∧
      (∀ s', s' ≠ sid →
        alookup (aset bus.scopes sid true) s' = alookup bus.scopes s')) ∧
    (∀ f, alookup bus.scopes sid = some f →
      unfreezeScope bus sid =
        .ok { bus with scopes := aset bus.scopes sid false } ∧
      alookup (aset bus.scopes sid false) sid = some false ∧
      (∀ s', s' ≠ sid →
        alookup (aset bus.scopes sid false) s' = alookup bus.scopes s')) := by
  refine ⟨?_, ?_, ?_, ?_⟩
  · constructor
    · intro h
      unfold freezeScope
      rw [h]
    · intro h
      cases hs : alookup bus.scopes sid with
      | none => rfl
      | some f =>
        unfold freezeScope at h
        rw [hs] at h
        simp at h
  · constructor
    · intro h
      unfold unfreezeScope
      rw [h]
    · intro h
      cases hs : alookup bus.scopes sid with
      | none => rfl
      | some f =>
        unfold unfreezeScope at h
        rw [hs] at h
        simp at h
  · intro f hf
    refine ⟨?_, rfl, rfl, rfl, alookup_aset_self _ _ _, ?_⟩
    · unfold freezeScope
      rw [hf]
    · intro s' hs'
      exact alookup_aset_ne _ _ _ _ hs'
  · intro f hf
    refine ⟨?_, alookup_aset_self _ _ _, ?_⟩
    · unfold unfreezeScope
      rw [hf]
    · intro s' hs'
      exact alookup_aset_ne _ _ _ _ hs'

/-- Witness for C7 at the concrete bus `busSF` (scope `"s1"` exists,
currently frozen) and a fresh name `"nope"` (never created). -/
theorem C7_witness :
    freezeScope busSF "nope" = .error (.UnknownScope "nope") ∧
    unfreezeScope busSF "nope" = .error (.UnknownScope "nope") ∧
    freezeScope busSF "s1" = .ok { busSF with scopes := [("s1", true)] } ∧
    unfreezeScope busSF "s1" = .ok { busSF with scopes := [("s1", false)] } ∧
    alookup (aset busSF.scopes "s1" false) "s1" = some false :=
  ⟨(C7_freeze_unfreeze busSF "nope").1.1 (by decide),
    (C7_freeze_unfreeze busSF "nope").2.1.1 (by decide),
    ((C7_freeze_unfreeze busSF "s1").2.2.1 true (by decide)).1,
    ((C7_freeze_unfreeze busSF "s1").2.2.2 true (by decide)).1,
    ((C7_freeze_unfreeze busSF "s1").2.2.2 true (by decide)).2.1⟩

end EventBus


namespace EventBus

/-- **C10.**  After a successful `off`, the handle's registration record
(handle → event name / index / scope id) is never deleted: the bus-level
`listCallbacks` and the scope-filtered view still return a record for the
removed handle, while `getCallbackInfo` (`describe`) for the same handle
now fails with `UnknownCallback` because the slot it points to is
tombstoned. -/
theorem C10_registration_survives_off {α : Type} (bus : EventBus α)
    (u : String) (r : HandlerRef) (hl : HandlerList α)
    (hr : alookup bus.registrations u = some r)
    (hh : alookup bus.handlers r.eventName = some hl) :
    off bus u = .ok { bus with
      handlers := aset bus.handlers r.eventName
        { hl with callbacks := hl.callbacks.set r.index none } } ∧
    (∀ b', off bus u = .ok b' →
      alookup b'.registrations u = some r ∧
      (⟨u, r.scopeId, r.eventName⟩ : RegistrationInfo) ∈ listCallbacks b' ∧
      (⟨u, r.scopeId, r.eventName⟩ : RegistrationInfo) ∈
        scopeListCallbacks b' r.scopeId ∧
      getCallbackInfo b' u = .error (.UnknownCallback u)) := by
  refine ⟨off_ok_of bus hr hh, ?_⟩
  intro b' hb
  obtain ⟨r', hl', hr', hh', hb2⟩ := off_inv hb
  rw [hr] at hr'
  cases hr'
  rw [hh] at hh'
  cases hh'
  subst hb2
  refine ⟨hr, ?_, ?_, ?_⟩
  · exact List.mem_map.2 ⟨(u, r), alookup_mem hr, rfl⟩
  · refine List.mem_filter.2 ⟨List.mem_map.2 ⟨(u, r), alookup_mem hr, rfl⟩, ?_⟩
    simp
  · unfold getCallbackInfo
    dsimp only
    rw [hr]
    dsimp only
    rw [alookup_aset_self]
    dsimp only
    rw [if_neg (by rw [getD_set_none]; simp)]

/-- Witness for C10 at `busE1`: removing handle `"u"` keeps its
registration record visible in both callback listings while
`getCallbackInfo` now fails. -/
theorem C10_witness :
    off busE1 "u" = .ok busE1c ∧
    alookup busE1c.registrations "u" = some ⟨"e", 0, ""⟩ ∧
    (⟨"u", "", "e"⟩ : RegistrationInfo) ∈ listCallbacks busE1c ∧
    (⟨"u", "", "e"⟩ : RegistrationInfo) ∈ scopeListCallbacks busE1c "" ∧
    getCallbackInfo busE1c "u" = .error (.UnknownCallback "u") := by
  have h := (C10_registration_survives_off busE1 "u" ⟨"e", 0, ""⟩
    ⟨⟨"e", false⟩, [some ⟨false, "u", 0⟩]⟩ (by decide) (by decide)).2
    busE1c (by decide)
  exact ⟨by decide, h.1, h.2.1, h.2.2.1, h.2.2.2⟩

/-- **C4.**  Index stability: a successful registration (sync or async)
appends its entry at the end of the event's callback list and records the
index equal to the list length at that moment (tombstoned slots are part
of the list, so a cleared slot is never reused); every other event's list
and every other handle's registration record are untouched.  A successful
removal replaces the entry's slot by the empty marker in place: the list
keeps its length, every other slot keeps its value, other events' lists
are untouched and the registration records are untouched — hence the index
stored for each ever-registered callback never changes and registration
order is index-monotonic. -/
theorem C4_index_stability {α : Type} (bus : EventBus α) :
    (∀ (n : String) (cb : α) (sid u u' : String) (b' : EventBus α)
        (hl : HandlerList α), alookup bus.handlers n = some hl →
      onSync bus n cb sid u = .ok (u', b') →
      alookup b'.handlers n =
        some { hl with callbacks := hl.callbacks ++ [some ⟨false, u, cb⟩] } ∧
      alookup b'.registrations u = some ⟨n, hl.callbacks.length, sid⟩ ∧
      (∀ m, m ≠ n → alookup b'.handlers m = alookup bus.handlers m) ∧
      (∀ v, v ≠ u →
        alookup b'.registrations v = alookup bus.registrations v)) ∧
    (∀ (n : String) (cb : α) (sid u u' : String) (b' : EventBus α)
        (hl : HandlerList α), alookup bus.handlers n = some hl →
      onAsync bus n cb sid u = .ok (u', b') →
      alookup b'.handlers n =
        some { hl with callbacks := hl.callbacks ++ [some ⟨true, u, cb⟩] } ∧
      alookup b'.registrations u = some ⟨n, hl.callbacks.length, sid⟩ ∧
      (∀ m, m ≠ n → alookup b'.handlers m = alookup bus.handlers m) ∧
      (∀ v, v ≠ u →
        alookup b'.registrations v = alookup bus.registrations v)) ∧
    (∀ (u : String) (b' : EventBus α) (r : HandlerRef)
        (hl : HandlerList α),
      alookup bus.registrations u = some r →
      alookup bus.handlers r.eventName = some hl →
      off bus u = .ok b' →
      alookup b'.handlers r.eventName =
        some { hl with callbacks := hl.callbacks.set r.index none } ∧
      (hl.callbacks.set r.index none).length = hl.callbacks.length ∧
      (∀ j, j ≠ r.index →
        (hl.callbacks.set r.index none).getD j none =
          hl.callbacks.getD j none) ∧
      (∀ m, m ≠ r.eventName →
        alookup b'.handlers m = alookup bus.handlers m) ∧
      b'.registrations = bus.registrations) := by
  refine ⟨?_, ?_, ?_⟩
  · intro n cb sid u u' b' hl hh h
    obtain ⟨hl0, he, hh0, hu, hb⟩ := onSync_inv h
    rw [hh] at hh0
    cases hh0
    subst hb
    refine ⟨alookup_aset_self _ _ _, alookup_aset_self _ _ _, ?_, ?_⟩
    · intro m hm
      exact alookup_aset_ne _ _ _ _ hm
    · intro v hv
      exact alookup_aset_ne _ _ _ _ hv
  · intro n cb sid u u' b' hl hh h
    obtain ⟨md, hl0, he, ha, hh0, hu, hb⟩ := onAsync_inv h
    rw [hh] at hh0
    cases hh0
    subst hb
    refine ⟨alookup_aset_self _ _ _, alookup_aset_self _ _ _, ?_, ?_⟩
    · intro m hm
      exact alookup_aset_ne _ _ _ _ hm
    · intro v hv
      exact alookup_aset_ne _ _ _ _ hv
  · intro u b' r hl hr hh h
    obtain ⟨r', hl0, hr0, hh0, hb⟩ := off_inv h
    rw [hr] at hr0
    cases hr0
    rw [hh] at hh0
    cases hh0
    subst hb
    refine ⟨alookup_aset_self _ _ _, by simp, ?_, ?_, rfl⟩
    · intro j hj
      exact getD_set_ne _ _ _ _ _ (Ne.symm hj)
    · intro m hm
      exact alookup_aset_ne _ _ _ _ hm

/-- Witness for C4: registering a second callback on `busE1` receives
index 1 (the current list length) without touching handle `"u"`, and the
removal of `"u"` from `busE1` clears slot 0 in place leaving the
registration records untouched. -/
theorem C4_witness :
    onSync busE1 "e" 5 "" "u2" = .ok ("u2", busE2) ∧
    alookup busE2.registrations "u2" = some ⟨"e", 1, ""⟩ ∧
    alookup busE2.registrations "u" = alookup busE1.registrations "u" ∧
    off busE1 "u" = .ok busE1c ∧
    busE1c.registrations = busE1.registrations := by
  have h1 := (C4_index_stability busE1).1 "e" 5 "" "u2" "u2" busE2
    ⟨⟨"e", false⟩, [some ⟨false, "u", 0⟩]⟩ (by decide) (by decide)
  have h3 := (C4_index_stability busE1).2.2 "u" busE1c ⟨"e", 0, ""⟩
    ⟨⟨"e", false⟩, [some ⟨false, "u", 0⟩]⟩ (by decide) (by decide) (by decide)
  exact ⟨by decide, h1.2.1, h1.2.2.2 "u" (by decide), by decide, h3.2.2.2.2⟩

end EventBus


namespace EventBus

/-- **C3.**  For a scope whose frozen flag is set, every `onSync`,
`onAsync` or `off` performed through the scope object returns the
frozen-error *result value* (the outer fault layer is `.ok`, i.e. nothing
is thrown) and hands back the bus completely unchanged — the equality is
on the whole `EventBus` record, so events, callback lists, registrations
and scopes are all identical.  After `unfreezeScope` the same calls
succeed again: a registration on a defined event (async-capable for
`onAsync`) returns `.ok` with the fresh handle, and a removal of a
still-occupied handle belonging to this scope returns `.ok`. -/
theorem C3_frozen_scope {α : Type} (bus : EventBus α) (sid : String)
    (hfz : alookup bus.scopes sid = some true) :
    (∀ (n : String) (cb : α) (u : String),
      scopeOnSync bus sid n cb u = .ok (.error .ScopeFrozen, bus)) ∧
    (∀ (n : String) (cb : α) (u : String),
      scopeOnAsync bus sid n cb u = .ok (.error .ScopeFrozen, bus)) ∧
    (∀ i, scopeOff bus sid i = .ok (.error .ScopeFrozen, bus)) ∧
    (unfreezeScope bus sid =
      .ok { bus with scopes := aset bus.scopes sid false }) ∧
    (∀ (n : String) (hl : HandlerList α) (cb : α) (u : String),
      (alookup bus.events n).isSome = true →
      alookup bus.handlers n = some hl →
      scopeOnSync { bus with scopes := aset bus.scopes sid false }
          sid n cb u =
        .ok (.ok u, { bus with
          scopes := aset bus.scopes sid false,
          registrations :=
            aset bus.registrations u ⟨n, hl.callbacks.length, sid⟩,
          handlers := aset bus.handlers n
            { hl with callbacks := hl.callbacks ++ [some ⟨false, u, cb⟩] } })) ∧
    (∀ (n : String) (md : EventMetadata) (hl : HandlerList α) (cb : α)
        (u : String),
      alookup bus.events n = some md → md.allowAsync = true →
      alookup bus.handlers n = some hl →
      scopeOnAsync { bus with scopes := aset bus.scopes sid false }
          sid n cb u =
        .ok (.ok u, { bus with
          scopes := aset bus.scopes sid false,
          registrations :=
            aset bus.registrations u ⟨n, hl.callbacks.length, sid⟩,
          handlers := aset bus.handlers n
            { hl with callbacks := hl.callbacks ++ [some ⟨true, u, cb⟩] } })) ∧
    (∀ (i : String) (r : HandlerRef) (hl : HandlerList α),
      alookup bus.registrations i = some r → r.scopeId = sid →
      alookup bus.handlers r.eventName = some hl →
      (hl.callbacks.getD r.index none).isSome = true →
      scopeOff { bus with scopes := aset bus.scopes sid false } sid i =
        .ok (.ok (), { bus with
          scopes := aset bus.scopes sid false,
          handlers := aset bus.handlers r.eventName
            { hl with callbacks := hl.callbacks.set r.index none } })) := by
  have hf2 : isFrozen { bus with scopes := aset bus.scopes sid false } sid
      = .ok false := by
    unfold isFrozen
    dsimp only
    rw [alookup_aset_self]
  refine ⟨?_, ?_, ?_, ?_, ?_, ?_, ?_⟩
  · intro n cb u
    unfold scopeOnSync isFrozen
    rw [hfz]
  · intro n cb u
    unfold scopeOnAsync isFrozen
    rw [hfz]
  · intro i
    unfold scopeOff isFrozen
    rw [hfz]
  · unfold unfreezeScope
    rw [hfz]
  · intro n hl cb u he hh
    unfold scopeOnSync
    rw [hf2]
    dsimp only
    rw [onSync_ok_of { bus with scopes := aset bus.scopes sid false }
      cb sid u he hh]
  · intro n md hl cb u he ha hh
    unfold scopeOnAsync
    rw [hf2]
    dsimp only
    rw [onAsync_ok_of { bus with scopes := aset bus.scopes sid false }
      cb sid u he ha hh]
  · intro i r hl hri hrs hh hslot
    unfold scopeOff
    rw [hf2]
    dsimp only
    rw [getCallbackInfo_ok_of
      { bus with scopes := aset bus.scopes sid false } hri hh hslot]
    dsimp only
    rw [if_neg (by simp [hrs]), off_ok_of
      { bus with scopes := aset bus.scopes sid false } hri hh]

/-- Witness for C3 at `busSF` (scope `"s1"` frozen, one callback `"u"` of
that scope on event `"e"`): the three frozen calls return the frozen
error with the bus unchanged, and after unfreezing, registration and
removal through the scope succeed. -/
theorem C3_witness :
    scopeOnSync busSF "s1" "e" 7 "u2" = .ok (.error .ScopeFrozen, busSF) ∧
    scopeOnAsync busSF "s1" "a" 7 "u2" = .ok (.error .ScopeFrozen, busSF) ∧
    scopeOff busSF "s1" "u" = .ok (.error .ScopeFrozen, busSF) ∧
    unfreezeScope busSF "s1" =
      .ok { busSF with scopes := [("s1", false)] } ∧
    scopeOnSync { busSF with scopes := [("s1", false)] } "s1" "e" 7 "u2" =
      .ok (.ok "u2", { busSF with
        scopes := [("s1", false)],
        registrations := [("u", ⟨"e", 0, "s1"⟩), ("u2", ⟨"e", 1, "s1"⟩)],
        handlers := [("e", ⟨⟨"e", false⟩,
            [some ⟨false, "u", 0⟩, some ⟨false, "u2", 7⟩]⟩),
          ("a", ⟨⟨"a", true⟩, []⟩)] }) ∧
    scopeOff { busSF with scopes := [("s1", false)] } "s1" "u" =
      .ok (.ok (), { busSF with
        scopes := [("s1", false)],
        handlers := [("e", ⟨⟨"e", false⟩, [none]⟩),
          ("a", ⟨⟨"a", true⟩, []⟩)] }) := by
  have h := C3_frozen_scope busSF "s1" (by decide)
  exact ⟨h.1 "e" 7 "u2", h.2.1 "a" 7 "u2", h.2.2.1 "u", h.2.2.2.1,
    h.2.2.2.2.1 "e" ⟨⟨"e", false⟩, [some ⟨false, "u", 0⟩]⟩ 7 "u2"
      (by decide) (by decide),
    h.2.2.2.2.2.2 "u" ⟨"e", 0, "s1"⟩ ⟨⟨"e", false⟩, [some ⟨false, "u", 0⟩]⟩
      (by decide) (by decide) (by decide) (by decide)⟩

end EventBus


namespace EventBus

/-- **C5.**  On every reachable bus, `fireAsync` (`emitAsync`) fails, with
`UnknownEvent`, exactly when the event name was never defined; when the
event is defined, it succeeds and its invocation trace is the list of all
non-cleared entries (sync or async alike) of the event's callback list, in
ascending index order — the trace equals the walk of indices
`0, 1, …, length-1` keeping each occupied slot.  Sequentiality (each
callback awaited before the next) is the list order of this trace in the
single-threaded model. -/
theorem C5_emitAsync {α : Type} (bus : EventBus α) (h : Reachable bus)
    (n : String) :
    (alookup bus.events n = none ↔
      emitAsync bus n = .error (.UnknownEvent n)) ∧
    (∀ md, alookup bus.events n = some md →
      (alookup bus.handlers n).isSome = true) ∧
    (∀ hl, alookup bus.handlers n = some hl →
      (alookup bus.events n).isSome = true →
      emitAsync bus n = .ok (hl.callbacks.filterMap id) ∧
      hl.callbacks.filterMap id =
        (List.range hl.callbacks.length).filterMap
          (fun i => hl.callbacks.getD i none)) := by
  obtain ⟨w1, w2, w3⟩ := wf_reachable h
  refine ⟨⟨?_, ?_⟩, ?_, ?_⟩
  · intro he
    unfold emitAsync
    rw [he]
  · intro he
    cases hev : alookup bus.events n with
    | none => rfl
    | some md =>
      unfold emitAsync at he
      rw [hev] at he
      dsimp only at he
      cases hh : alookup bus.handlers n with
      | none =>
        have := w2 n (by simp [hev])
        rw [hh] at this
        simp at this
      | some hl =>
        rw [hh] at he
        simp at he
  · intro md he
    exact w2 n (by simp [he])
  · intro hl hh he
    refine ⟨?_, filterMap_id_range hl.callbacks⟩
    unfold emitAsync
    cases hev : alookup bus.events n with
    | none => rw [hev] at he; simp at he
    | some md =>
      dsimp only
      rw [hh]

/-- Witness for C5 at the reachable bus `busE1`. -/
theorem C5_witness :
    emitAsync busE1 "e" = .ok [⟨false, "u", 0⟩] ∧
    [some (⟨false, "u", 0⟩ : EventCallback Nat)].filterMap id =
      (List.range 1).filterMap
        (fun i =>
          [some (⟨false, "u", 0⟩ : EventCallback Nat)].getD i none) ∧
    emitAsync busE1 "nope" = .error (.UnknownEvent "nope") := by
  have h := C5_emitAsync busE1 reachable_busE1 "e"
  have h2 := (C5_emitAsync busE1 reachable_busE1 "nope").1.1 (by decide)
  have h3 := h.2.2 ⟨⟨"e", false⟩, [some ⟨false, "u", 0⟩]⟩ (by decide)
    (by decide)
  exact ⟨h3.1, h3.2, h2⟩

/-- **C9.**  In every reachable bus state, every occupied slot of an event
whose `allowAsync` flag is false holds an entry tagged `async = false`;
consequently `emit`, which invokes the occupied slots without inspecting
the tag, only ever invokes synchronous callbacks. -/
theorem C9_sync_only {α : Type} (bus : EventBus α) (h : Reachable bus) :
    (∀ (n : String) (md : EventMetadata) (hl : HandlerList α),
      alookup bus.events n = some md → md.allowAsync = false →
      alookup bus.handlers n = some hl →
      ∀ o ∈ hl.callbacks, ∀ c, o = some c → c.async = false) ∧
    (∀ (n : String) (tr : List (EventCallback α)),
      emit bus n = .ok tr → ∀ c ∈ tr, c.async = false) := by
  obtain ⟨w1, w2, w3⟩ := wf_reachable h
  constructor
  · intro n md hl hev hasync hh o ho c hc
    have hprop := w1 n hl hh
    rw [hev] at hprop
    have : md = hl.property := Option.some.inj hprop
    exact w3 n hl hh (this ▸ hasync) o ho c hc
  · intro n tr htr c hctr
    obtain ⟨md, hl, hev, hasync, hh, htr2⟩ := emit_inv htr
    subst htr2
    obtain ⟨o, ho, hoc⟩ := List.mem_filterMap.1 hctr
    have hprop := w1 n hl hh
    rw [hev] at hprop
    have hmd : md = hl.property := Option.some.inj hprop
    exact w3 n hl hh (hmd ▸ hasync) o ho c (by simpa using hoc)

/-- Witness for C9 at the reachable bus `busE1`: `emit` on `"e"` invokes
exactly the one stored entry, and that entry is tagged synchronous. -/
theorem C9_witness :
    emit busE1 "e" = .ok [⟨false, "u", 0⟩] ∧
    (⟨false, "u", (0 : Nat)⟩ : EventCallback Nat).async = false :=
  ⟨by decide,
    (C9_sync_only busE1 reachable_busE1).2 "e" [⟨false, "u", 0⟩]
      (by decide) ⟨false, "u", 0⟩ (by decide)⟩

end EventBus


/-- **C8, counterexample.**  `listEvents` is `Object.values(this.events)`:
the array is fresh, but its elements are the bus's own mutable metadata
objects.  Concretely: after `define("e", false)`, `listEvents` returns the
one reference; assigning `allowAsync = true` through that returned
reference changes the definition the bus itself stores for `"e"` — the
internal state is affected, refuting the claim's "(including the
definitions it contains)". -/
theorem C8_counterexample :
    EventsHeap.define ⟨[], []⟩ "e" false =
      .ok ⟨[⟨"e", false⟩], [("e", 0)]⟩ ∧
    EventsHeap.listEvents ⟨[⟨"e", false⟩], [("e", 0)]⟩ = [0] ∧
    (EventsHeap.setAllowAsync ⟨[⟨"e", false⟩], [("e", 0)]⟩ 0 true).deref 0 =
      some ⟨"e", true⟩ ∧
    EventsHeap.setAllowAsync ⟨[⟨"e", false⟩], [("e", 0)]⟩ 0 true ≠
      ⟨[⟨"e", false⟩], [("e", 0)]⟩ := by decide

/-- **C8, amended.**  `listEvents` returns a fresh array listing every
defined event's definition; because the array is fresh, mutating the
collection itself never changes the catalog (`byName` is untouched by any
operation on the returned value), but the array's elements are references
to the bus's own definition objects, so assigning a field through a
returned definition does change the internally stored definition. -/
theorem C8_listEvents_amended (h : EventsHeap) (n : String) (a : Nat)
    (md : EventMetadata) (b : Bool)
    (ha : alookup h.byName n = some a) (hd : h.deref a = some md) :
    a ∈ h.listEvents ∧
    (h.setAllowAsync a b).byName = h.byName ∧
    (h.setAllowAsync a b).deref a = some { md with allowAsync := b } := by
  refine ⟨?_, rfl, ?_⟩
  · exact List.mem_map.2 ⟨(n, a), alookup_mem ha, rfl⟩
  · show (modifyAt h.store a (fun m => { m with allowAsync := b })).get? a
        = some { md with allowAsync := b }
    rw [get?_modifyAt, show h.store.get? a = some md from hd]
    rfl

/-- Witness for C8's amended theorem at the one-event heap. -/
theorem C8_amended_witness :
    0 ∈ EventsHeap.listEvents ⟨[⟨"e", false⟩], [("e", 0)]⟩ ∧
    (EventsHeap.setAllowAsync ⟨[⟨"e", false⟩], [("e", 0)]⟩ 0 true).byName =
      [("e", 0)] ∧
    (EventsHeap.setAllowAsync ⟨[⟨"e", false⟩], [("e", 0)]⟩ 0 true).deref 0 =
      some ⟨"e", true⟩ := by
  have h := C8_listEvents_amended ⟨[⟨"e", false⟩], [("e", 0)]⟩ "e" 0
    ⟨"e", false⟩ true (by decide) (by decide)
  exact ⟨h.1, h.2.1, h.2.2⟩

end SimpleLogger
